import Mathlib

/-!
Leap Motion driver: frame ingestion and event fan-out.

A shallow embedding of `platforms/leap/leap_motion_driver.go`.

* The websocket, the goroutine started by `Start` and the event bus are made
  explicit as a `World`: the chronological `trace` of the effects the driver
  has performed (`ws.Write` calls, returns of `receive`, `Publish` calls) and
  the message buffer `msg` of every ingestion goroutine spawned so far.
* The environment drives the machine through `Call`s: a call of `Start` with the
  outcome of its `ws.Write`, a call of `Halt`, or the return of the blocking
  `receive` inside one ingestion goroutine with its outcome.
* `ParseFrame`, `Frame`, `Hand` and `Gesture` are declared in other files of the
  package: the element types are type parameters and `ParseFrame` is a
  parameter of the loop, of the type its call site fixes
  (`frame = l.ParseFrame(msg)`: bytes in, one `Frame` out, no error value).
* A byte slice (`[]byte`) is a `String`; the nil slice is the empty string.
* An `error` value is a `String`; a `[]error` is a `List String`.
-/

namespace Leap

/-! ## Constants -/

/-- Message event -/
def MessageEvent : String := "message"

/-- Hand event -/
def HandEvent : String := "hand"

/-- Gesture event -/
def GestureEvent : String := "gesture"

/-! ## Data model -/

/-- The Go `Frame` struct as far as the driver reads it: the slices `Hands` and
`Gestures` the loop ranges over; every other field is carried in `rest`. -/
structure Frame (H G R : Type) where
  Hands : List H
  Gestures : List G
  rest : R
  deriving DecidableEq

/-- The `data interface{}` argument of `Publish`: the driver passes a `Frame`,
a `Hand` or a `Gesture`. -/
inductive Data (H G R : Type) where
  | frame (f : Frame H G R)
  | hand (h : H)
  | gesture (g : G)
  deriving DecidableEq

/-- Outcome of one `websocket.Message.Receive(ws, msg)`: either a whole payload
was stored through the pointer `msg`, or the call returned an error and stored
nothing. -/
inductive RecvResult where
  | data (payload : String)
  | failed
  deriving DecidableEq

/-- One observable effect of the driver. -/
inductive Effect (H G R : Type) where
  | write (b : String) (ok : Bool)
  | receive (loop : Nat) (r : RecvResult)
  | publish (name : String) (data : Data H G R)
  deriving DecidableEq

/-- The websocket and goroutine state around one driver: `trace` is every effect
so far, oldest first; `loops` holds the `msg` buffer of each goroutine that
`Start` has spawned (none is ever removed: the `for` has no exit). -/
structure World (H G R : Type) where
  trace : List (Effect H G R)
  loops : List String
  deriving DecidableEq

/-- A freshly constructed driver: nothing written, received or published, no
goroutine. -/
def World.init {H G R : Type} : World H G R := ⟨[], []⟩

/-- Modelled from the spec: the Event Bus registry (`gobot.Eventer`, declared in
the root package and not part of this file), "named-topic publish/subscribe
registry" whose topic set is "established once at driver construction"; it is
kept as the list of declared topic names, `AddEvent` declaring one more. -/
structure Eventer where
  eventnames : List String
  deriving DecidableEq

/-- Modelled from the spec: a new Event Bus with no topic declared. -/
def NewEventer : Eventer := ⟨[]⟩

/-- Modelled from the spec: declare `name` as a topic of the bus (declaring a
topic twice leaves one entry). -/
def Eventer.AddEvent (e : Eventer) (name : String) : Eventer :=
  if name ∈ e.eventnames then e else ⟨e.eventnames ++ [name]⟩

/-- The Go struct `LeapMotionDriver`; `A` is the adaptor the driver points to. -/
structure LeapMotionDriver (A : Type) where
  name : String
  connection : A
  eventer : Eventer

/-- The constructor `NewLeapMotionDriver` creates a new leap motion driver with specified name
and adds the events "message", "hand" and "gesture". -/
def NewLeapMotionDriver {A : Type} (a : A) (name : String) : LeapMotionDriver A :=
  let l : LeapMotionDriver A := ⟨name, a, NewEventer⟩
  let l : LeapMotionDriver A := ⟨l.name, l.connection, l.eventer.AddEvent MessageEvent⟩
  let l : LeapMotionDriver A := ⟨l.name, l.connection, l.eventer.AddEvent HandEvent⟩
  let l : LeapMotionDriver A := ⟨l.name, l.connection, l.eventer.AddEvent GestureEvent⟩
  l

/-- Method `Name`. -/
def LeapMotionDriver.Name {A : Type} (l : LeapMotionDriver A) : String := l.name

/-- Method `Connection`. -/
def LeapMotionDriver.Connection {A : Type} (l : LeapMotionDriver A) : A := l.connection

/-! ## The control command -/

/-- Go's `json.Marshal` on a `map[string]bool` whose keys need no escaping: the
entries (given in key order, as the encoder sorts them) are written as
`"key":true` or `"key":false`, separated by commas, inside braces. The encoder
has no failing case for this type. -/
def jsonMarshal (m : List (String × Bool)) : Except String String :=
  .ok ("\x7b" ++ ",".intercalate
    (m.map fun kv => "\"" ++ kv.1 ++ "\":" ++ (if kv.2 then "true" else "false")) ++ "\x7d")

/-- The map literal `map[string]bool{"enableGestures": true}` of `Start`. -/
def enableGestures : List (String × Bool) := [("enableGestures", true)]

/-! ## Operations -/

/-- The package variable `receive`: calls `websocket.Message.Receive` and drops
its error. A payload overwrites `msg`; a failed receive leaves `msg` as it was. -/
def receive (r : RecvResult) (msg : String) : String :=
  match r with
  | .data payload => payload
  | .failed => msg

/-- One iteration of the `for` loop inside the goroutine of `Start`, run by
goroutine `loop` whose buffer is `msg`, when its `receive` returns with `r`:
the new buffer and the effects, in program order. -/
def loopIter {H G R : Type} (ParseFrame : String → Frame H G R) (loop : Nat) (msg : String)
    (r : RecvResult) : String × List (Effect H G R) :=
  let msg := receive r msg
  let frame := ParseFrame msg
  (msg,
    [Effect.receive loop r, Effect.publish MessageEvent (Data.frame frame)]
      ++ frame.Hands.map (fun hand => Effect.publish HandEvent (Data.hand hand))
      ++ frame.Gestures.map (fun gesture => Effect.publish GestureEvent (Data.gesture gesture)))

/-- Method `Start`: marshal the enable-gestures map, write it to the websocket
(`writeErr` is the error `ws.Write` returns, `none` for `nil`), and on success
spawn the ingestion goroutine, whose `msg` starts out nil. Returns `errs`. -/
def Start {H G R : Type} (w : World H G R) (writeErr : Option String) :
    List String × World H G R :=
  match jsonMarshal enableGestures with
  | .error err => ([err], w)
  | .ok b =>
    match writeErr with
    | some err => ([err], ⟨w.trace ++ [Effect.write b false], w.loops⟩)
    | none => ([], ⟨w.trace ++ [Effect.write b true], w.loops ++ [""]⟩)

/-- Method `Halt`: `func (l *LeapMotionDriver) Halt() (errs []error) { return }`. -/
def Halt {H G R : Type} (w : World H G R) : List String × World H G R := ([], w)

/-- What the environment can make happen next. -/
inductive Call where
  | start (writeErr : Option String)
  | halt
  | deliver (loop : Nat) (r : RecvResult)
  deriving DecidableEq

/-- One transition. `deliver loop r` is the return of the blocking `receive` of
goroutine `loop`; with no such goroutine nothing receives and nothing happens. -/
def step {H G R : Type} (ParseFrame : String → Frame H G R) (w : World H G R) :
    Call → World H G R
  | .start writeErr => (Start w writeErr).2
  | .halt => (Halt w).2
  | .deliver loop r =>
    match w.loops.get? loop with
    | none => w
    | some msg =>
      ⟨w.trace ++ (loopIter ParseFrame loop msg r).2,
        w.loops.set loop (loopIter ParseFrame loop msg r).1⟩

/-- Run a sequence of calls. -/
def run {H G R : Type} (ParseFrame : String → Frame H G R) (w : World H G R)
    (cs : List Call) : World H G R :=
  cs.foldl (step ParseFrame) w

/-- The goroutine of `Start` as a function of what its successive `receive`
calls return: the effects of goroutine `loop`, started with buffer `msg`. -/
def loopTrace {H G R : Type} (ParseFrame : String → Frame H G R) (loop : Nat) (msg : String) :
    List RecvResult → List (Effect H G R)
  | [] => []
  | r :: rs =>
    (loopIter ParseFrame loop msg r).2
      ++ loopTrace ParseFrame loop (loopIter ParseFrame loop msg r).1 rs

/-! ## Observations -/

/-- The `Publish` calls of a trace, oldest first, as (topic, value). -/
def publishedOf {H G R : Type} (t : List (Effect H G R)) : List (String × Data H G R) :=
  t.filterMap fun
    | .publish name data => some (name, data)
    | _ => none

/-- The payloads handed to `ws.Write` in a trace, oldest first. -/
def writtenOf {H G R : Type} (t : List (Effect H G R)) : List String :=
  t.filterMap fun
    | .write b _ => some b
    | _ => none

/-- The `receive` calls that returned in a trace, oldest first. -/
def receivedOf {H G R : Type} (t : List (Effect H G R)) : List (Nat × RecvResult) :=
  t.filterMap fun
    | .receive loop r => some (loop, r)
    | _ => none

/-- The events published so far. -/
def published {H G R : Type} (w : World H G R) : List (String × Data H G R) :=
  publishedOf w.trace

/-- The payloads written to the websocket so far. -/
def written {H G R : Type} (w : World H G R) : List String := writtenOf w.trace

/-- The receives that have returned so far. -/
def received {H G R : Type} (w : World H G R) : List (Nat × RecvResult) :=
  receivedOf w.trace

/-- The events one frame fans out to: its `message` event, then one `hand`
event per entry of `Hands`, then one `gesture` event per entry of `Gestures`. -/
def frameBlock {H G R : Type} (f : Frame H G R) : List (String × Data H G R) :=
  (MessageEvent, Data.frame f)
    :: (f.Hands.map (fun h => (HandEvent, Data.hand h))
      ++ f.Gestures.map (fun g => (GestureEvent, Data.gesture g)))

/-- The `Publish` effects for a list of (topic, value) events, in order. -/
def publishAll {H G R : Type} (es : List (String × Data H G R)) : List (Effect H G R) :=
  es.map fun e => Effect.publish e.1 e.2

/-- An event carries the value its topic announces: a `Frame` on "message", a
`Hand` on "hand", a `Gesture` on "gesture". -/
def wellTyped {H G R : Type} (e : String × Data H G R) : Prop :=
  (∃ f, e = (MessageEvent, Data.frame f)) ∨ (∃ h, e = (HandEvent, Data.hand h))
    ∨ (∃ g, e = (GestureEvent, Data.gesture g))

/-- The buffer of a goroutine after its receives returned with `rs`, in order. -/
def bufferAfter (msg : String) (rs : List RecvResult) : String :=
  rs.foldl (fun m r => receive r m) msg

/-! ## A fixture: the three-payload scenario -/

/-- Frame of payload `P1`: two hands, no gesture. -/
def F1 : Frame String String Unit := ⟨["h1a", "h1b"], [], ()⟩

/-- Frame of payload `P3`: no hand, one gesture. -/
def F3 : Frame String String Unit := ⟨[], ["g3a"], ()⟩

/-- A stand-in decoder for the scenario: `P1` and `P3` decode to `F1` and `F3`,
any other payload yields the zero `Frame`. -/
def sampleParse (msg : String) : Frame String String Unit :=
  if msg = "P1" then F1 else if msg = "P3" then F3 else ⟨[], [], ()⟩

/-! ## Basic lemmas -/

theorem publishedOf_append {H G R : Type} (s t : List (Effect H G R)) :
    publishedOf (s ++ t) = publishedOf s ++ publishedOf t := by
  simp [publishedOf, List.filterMap_append]

theorem publishedOf_map_publish {H G R α : Type} (name : String) (f : α → Data H G R)
    (l : List α) :
    publishedOf (l.map fun x => Effect.publish name (f x)) = l.map fun x => (name, f x) := by
  induction l with
  | nil => rfl
  | cons x xs ih =>
    have hcons : publishedOf (Effect.publish name (f x) :: xs.map fun y => Effect.publish name (f y))
        = (name, f x) :: publishedOf (xs.map fun y => Effect.publish name (f y)) := rfl
    rw [List.map_cons, hcons, ih, List.map_cons]

theorem publishedOf_loopIter {H G R : Type} (PF : String → Frame H G R) (i : Nat)
    (msg : String) (r : RecvResult) :
    publishedOf (loopIter PF i msg r).2 = frameBlock (PF (receive r msg)) := by
  have h2 : publishedOf [Effect.receive i r,
      Effect.publish MessageEvent (Data.frame (PF (receive r msg)))]
      = [(MessageEvent, Data.frame (PF (receive r msg)))] := rfl
  simp only [loopIter, publishedOf_append, publishedOf_map_publish, h2, frameBlock]
  simp

theorem publishedOf_loopTrace_data {H G R : Type} (PF : String → Frame H G R) (i : Nat)
    (ps : List String) (msg : String) :
    publishedOf (loopTrace PF i msg (ps.map RecvResult.data))
      = ps.flatMap fun p => frameBlock (PF p) := by
  induction ps generalizing msg with
  | nil => rfl
  | cons p ps ih =>
    simp only [List.map_cons, loopTrace, publishedOf_append, publishedOf_loopIter, ih,
      List.flatMap_cons]
    rfl

theorem run_append {H G R : Type} (PF : String → Frame H G R) (w : World H G R)
    (cs ds : List Call) : run PF w (cs ++ ds) = run PF (run PF w cs) ds := by
  simp [run, List.foldl_append]

theorem run_cons {H G R : Type} (PF : String → Frame H G R) (w : World H G R)
    (c : Call) (cs : List Call) : run PF w (c :: cs) = run PF (step PF w c) cs := rfl

theorem step_deliver_none {H G R : Type} (PF : String → Frame H G R) (w : World H G R)
    (i : Nat) (r : RecvResult) (h : w.loops.get? i = none) :
    step PF w (Call.deliver i r) = w := by
  simp only [step, h]

theorem step_deliver_some {H G R : Type} (PF : String → Frame H G R) (w : World H G R)
    (i : Nat) (r : RecvResult) (msg : String) (h : w.loops.get? i = some msg) :
    step PF w (Call.deliver i r)
      = ⟨w.trace ++ (loopIter PF i msg r).2, w.loops.set i (loopIter PF i msg r).1⟩ := by
  simp only [step, h]

theorem set_of_get? {α : Type} (l : List α) (i : Nat) (a : α) (h : l.get? i = some a) :
    l.set i a = l := by
  induction l generalizing i with
  | nil => rfl
  | cons x xs ih =>
    cases i with
    | zero =>
      simp only [List.get?_cons_zero, Option.some.injEq] at h
      simp [h]
    | succ n =>
      simp only [List.get?_cons_succ] at h
      simp [ih n h]

/-- Delivering the receive results `rs` to goroutine `i` makes that goroutine
run `loopTrace` from its buffer and leaves the other goroutines alone. -/
theorem run_deliver {H G R : Type} (PF : String → Frame H G R) (i : Nat)
    (rs : List RecvResult) (w : World H G R) (msg : String) (h : w.loops.get? i = some msg) :
    run PF w (rs.map (Call.deliver i))
      = ⟨w.trace ++ loopTrace PF i msg rs, w.loops.set i (bufferAfter msg rs)⟩ := by
  induction rs generalizing w msg with
  | nil =>
    have hset : w.loops.set i msg = w.loops := set_of_get? _ _ _ h
    simp [run, loopTrace, bufferAfter, hset]
  | cons r rs ih =>
    rw [List.map_cons, run_cons]
    have hstep : step PF w (Call.deliver i r)
        = ⟨w.trace ++ (loopIter PF i msg r).2, w.loops.set i (loopIter PF i msg r).1⟩ := by
      simp only [step, h]
    rw [hstep]
    have hlt : i < w.loops.length := by
      rw [List.get?_eq_getElem?] at h
      exact (List.getElem?_eq_some_iff.mp h).1
    rw [ih _ (loopIter PF i msg r).1 (by simp [List.get?_eq_getElem?, hlt])]
    simp [loopTrace, bufferAfter, loopIter, List.append_assoc]

theorem Start_none {H G R : Type} (w : World H G R) :
    Start w none
      = ([], ⟨w.trace ++ [Effect.write "\x7b\"enableGestures\":true\x7d" true],
          w.loops ++ [""]⟩) := rfl

theorem Start_some {H G R : Type} (w : World H G R) (err : String) :
    Start w (some err)
      = ([err], ⟨w.trace ++ [Effect.write "\x7b\"enableGestures\":true\x7d" false],
          w.loops⟩) := rfl

/-- After one successful `Start` on a fresh driver, the receives `rs` of the one
goroutine give the trace: the write, then the goroutine's effects. -/
theorem run_start_deliver {H G R : Type} (PF : String → Frame H G R) (rs : List RecvResult) :
    run PF (World.init : World H G R) (Call.start none :: rs.map (Call.deliver 0))
      = ⟨Effect.write "\x7b\"enableGestures\":true\x7d" true :: loopTrace PF 0 "" rs,
          [bufferAfter "" rs]⟩ := by
  rw [run_cons]
  have h0 : step PF (World.init : World H G R) (Call.start none)
      = ⟨[Effect.write "\x7b\"enableGestures\":true\x7d" true], [""]⟩ := rfl
  rw [h0, run_deliver PF 0 rs ⟨[Effect.write "\x7b\"enableGestures\":true\x7d" true], [""]⟩
    "" rfl]
  rfl

theorem filter_topic_map {H G R α : Type} (t name : String) (f : α → Data H G R) (l : List α) :
    (l.map fun x => (name, f x)).filter (fun e => decide (e.1 = t))
      = if name = t then l.map (fun x => (name, f x)) else [] := by
  by_cases h : name = t
  · simp [h]
  · simp [h, List.filter_eq_nil_iff]

theorem filter_message_frameBlock {H G R : Type} (f : Frame H G R) :
    (frameBlock f).filter (fun e => decide (e.1 = MessageEvent))
      = [(MessageEvent, Data.frame f)] := by
  have h1 : HandEvent ≠ MessageEvent := by decide
  have h2 : GestureEvent ≠ MessageEvent := by decide
  simp [frameBlock, List.filter_cons, filter_topic_map, h1, h2]

theorem filter_hand_frameBlock {H G R : Type} (f : Frame H G R) :
    (frameBlock f).filter (fun e => decide (e.1 = HandEvent))
      = f.Hands.map (fun h => ((HandEvent, Data.hand h) : String × Data H G R)) := by
  have h1 : MessageEvent ≠ HandEvent := by decide
  have h2 : GestureEvent ≠ HandEvent := by decide
  simp [frameBlock, List.filter_cons, filter_topic_map, h1, h2]

theorem filter_gesture_frameBlock {H G R : Type} (f : Frame H G R) :
    (frameBlock f).filter (fun e => decide (e.1 = GestureEvent))
      = f.Gestures.map (fun g => ((GestureEvent, Data.gesture g) : String × Data H G R)) := by
  have h1 : MessageEvent ≠ GestureEvent := by decide
  have h2 : HandEvent ≠ GestureEvent := by decide
  simp [frameBlock, List.filter_cons, filter_topic_map, h1, h2]

theorem filter_flatMap {α β : Type} (p : β → Bool) (f : α → List β) (l : List α) :
    (l.flatMap f).filter p = l.flatMap fun x => (f x).filter p := by
  induction l with
  | nil => rfl
  | cons x xs ih => simp [List.flatMap_cons, List.filter_append, ih]

theorem flatMap_singleton {α β : Type} (f : α → β) (l : List α) :
    (l.flatMap fun x => [f x]) = l.map f := by
  induction l with
  | nil => rfl
  | cons x xs ih => simp [List.flatMap_cons, ih]

theorem loopIter_fst {H G R : Type} (PF : String → Frame H G R) (i : Nat) (msg : String)
    (r : RecvResult) : (loopIter PF i msg r).1 = receive r msg := rfl

theorem loopIter_snd {H G R : Type} (PF : String → Frame H G R) (i : Nat) (msg : String)
    (r : RecvResult) :
    (loopIter PF i msg r).2
      = Effect.receive i r :: publishAll (frameBlock (PF (receive r msg))) := by
  simp [loopIter, publishAll, frameBlock, List.map_append, Function.comp_def]

theorem publishedOf_publishAll {H G R : Type} (es : List (String × Data H G R)) :
    publishedOf (publishAll es) = es := by
  induction es with
  | nil => rfl
  | cons e es ih =>
    have hcons : publishedOf (publishAll (e :: es)) = (e.1, e.2) :: publishedOf (publishAll es) :=
      rfl
    rw [hcons, ih]

theorem published_run_start_data {H G R : Type} (PF : String → Frame H G R)
    (ps : List String) :
    published (run PF World.init
        (Call.start none :: (ps.map RecvResult.data).map (Call.deliver 0)))
      = ps.flatMap fun p => frameBlock (PF p) := by
  rw [run_start_deliver]
  show publishedOf (_ :: _) = _
  exact publishedOf_loopTrace_data PF 0 ps ""

theorem frameBlock_ne_nil {H G R : Type} (f : Frame H G R) : frameBlock f ≠ [] := by
  simp [frameBlock]

theorem frameBlock_length {H G R : Type} (f : Frame H G R) :
    (frameBlock f).length = 1 + f.Hands.length + f.Gestures.length := by
  simp [frameBlock]
  omega

theorem bufferAfter_append (msg : String) (rs ss : List RecvResult) :
    bufferAfter msg (rs ++ ss) = bufferAfter (bufferAfter msg rs) ss := by
  simp [bufferAfter, List.foldl_append]

theorem loopTrace_append {H G R : Type} (PF : String → Frame H G R) (i : Nat)
    (rs ss : List RecvResult) (msg : String) :
    loopTrace PF i msg (rs ++ ss)
      = loopTrace PF i msg rs ++ loopTrace PF i (bufferAfter msg rs) ss := by
  induction rs generalizing msg with
  | nil => rfl
  | cons r rs ih =>
    have hb : bufferAfter msg (r :: rs) = bufferAfter (loopIter PF i msg r).1 rs := rfl
    show (loopIter PF i msg r).2 ++ loopTrace PF i (loopIter PF i msg r).1 (rs ++ ss) = _
    rw [ih, hb]
    simp [loopTrace, List.append_assoc]

theorem loopTrace_singleton {H G R : Type} (PF : String → Frame H G R) (i : Nat)
    (r : RecvResult) (msg : String) :
    loopTrace PF i msg [r]
      = Effect.receive i r :: publishAll (frameBlock (PF (receive r msg))) := by
  simp [loopTrace, loopIter_snd]

theorem published_run_start_deliver {H G R : Type} (PF : String → Frame H G R)
    (rs : List RecvResult) :
    published (run PF World.init (Call.start none :: rs.map (Call.deliver 0)))
      = publishedOf (loopTrace PF 0 "" rs) := by
  rw [run_start_deliver]
  rfl

theorem writtenOf_append {H G R : Type} (s t : List (Effect H G R)) :
    writtenOf (s ++ t) = writtenOf s ++ writtenOf t := by
  simp [writtenOf, List.filterMap_append]

theorem receivedOf_append {H G R : Type} (s t : List (Effect H G R)) :
    receivedOf (s ++ t) = receivedOf s ++ receivedOf t := by
  simp [receivedOf, List.filterMap_append]

theorem writtenOf_publishAll {H G R : Type} (es : List (String × Data H G R)) :
    writtenOf (publishAll es) = [] := by
  induction es with
  | nil => rfl
  | cons e es ih =>
    have hcons : writtenOf (publishAll (e :: es)) = writtenOf (publishAll es) := rfl
    rw [hcons, ih]

theorem receivedOf_publishAll {H G R : Type} (es : List (String × Data H G R)) :
    receivedOf (publishAll es) = [] := by
  induction es with
  | nil => rfl
  | cons e es ih =>
    have hcons : receivedOf (publishAll (e :: es)) = receivedOf (publishAll es) := rfl
    rw [hcons, ih]

theorem writtenOf_loopIter {H G R : Type} (PF : String → Frame H G R) (i : Nat)
    (msg : String) (r : RecvResult) : writtenOf (loopIter PF i msg r).2 = [] := by
  rw [loopIter_snd]
  exact writtenOf_publishAll _

theorem receivedOf_loopIter {H G R : Type} (PF : String → Frame H G R) (i : Nat)
    (msg : String) (r : RecvResult) : receivedOf (loopIter PF i msg r).2 = [(i, r)] := by
  rw [loopIter_snd]
  show (i, r) :: receivedOf (publishAll _) = _
  rw [receivedOf_publishAll]

theorem writtenOf_loopTrace {H G R : Type} (PF : String → Frame H G R) (i : Nat)
    (rs : List RecvResult) (msg : String) : writtenOf (loopTrace PF i msg rs) = [] := by
  induction rs generalizing msg with
  | nil => rfl
  | cons r rs ih => simp [loopTrace, writtenOf_append, writtenOf_loopIter, ih]

theorem receivedOf_loopTrace {H G R : Type} (PF : String → Frame H G R) (i : Nat)
    (rs : List RecvResult) (msg : String) :
    receivedOf (loopTrace PF i msg rs) = rs.map fun r => (i, r) := by
  induction rs generalizing msg with
  | nil => rfl
  | cons r rs ih => simp [loopTrace, receivedOf_append, receivedOf_loopIter, ih]

/-- With no goroutine spawned, no receive returns: deliveries change nothing. -/
theorem run_deliver_no_loops {H G R : Type} (PF : String → Frame H G R)
    (t : List (Effect H G R)) (ds : List (Nat × RecvResult)) :
    run PF ⟨t, []⟩ (ds.map fun d => Call.deliver d.1 d.2) = ⟨t, []⟩ := by
  induction ds with
  | nil => rfl
  | cons d ds ih =>
    rw [List.map_cons, run_cons]
    have hstep : step PF (⟨t, []⟩ : World H G R) (Call.deliver d.1 d.2) = ⟨t, []⟩ := rfl
    rw [hstep, ih]

theorem run_replicate_start {H G R : Type} (PF : String → Frame H G R) (n : Nat)
    (w : World H G R) :
    run PF w (List.replicate n (Call.start none))
      = ⟨w.trace ++ List.replicate n (Effect.write "\x7b\"enableGestures\":true\x7d" true),
          w.loops ++ List.replicate n ""⟩ := by
  induction n generalizing w with
  | zero => simp [run]
  | succ n ih =>
    rw [List.replicate_succ, run_cons]
    have hstep : step PF w (Call.start none) = (Start w none).2 := rfl
    rw [hstep, Start_none, ih]
    simp [List.replicate_succ]

theorem wellTyped_frameBlock {H G R : Type} (f : Frame H G R) :
    ∀ e ∈ frameBlock f, wellTyped e := by
  intro e he
  simp only [frameBlock, List.mem_cons, List.mem_append, List.mem_map] at he
  rcases he with rfl | ⟨h, _, rfl⟩ | ⟨g, _, rfl⟩
  · exact Or.inl ⟨f, rfl⟩
  · exact Or.inr (Or.inl ⟨h, rfl⟩)
  · exact Or.inr (Or.inr ⟨g, rfl⟩)

theorem published_step {H G R : Type} (PF : String → Frame H G R) (w : World H G R)
    (c : Call) :
    published (step PF w c) = published w
      ∨ ∃ f, published (step PF w c) = published w ++ frameBlock f := by
  cases c with
  | start e =>
    cases e with
    | none => left; simp [step, Start_none, published, publishedOf_append]; rfl
    | some err => left; simp [step, Start_some, published, publishedOf_append]; rfl
  | halt => exact Or.inl rfl
  | deliver i r =>
    cases h : w.loops.get? i with
    | none =>
      left
      rw [step_deliver_none PF w i r h]
    | some msg =>
      right
      refine ⟨PF (receive r msg), ?_⟩
      rw [step_deliver_some PF w i r msg h]
      simp [published, publishedOf_append, publishedOf_loopIter]

theorem wellTyped_run {H G R : Type} (PF : String → Frame H G R) (cs : List Call)
    (w : World H G R) (hw : ∀ e ∈ published w, wellTyped e) :
    ∀ e ∈ published (run PF w cs), wellTyped e := by
  induction cs generalizing w with
  | nil => exact hw
  | cons c cs ih =>
    rw [run_cons]
    apply ih
    intro e he
    rcases published_step PF w c with h | ⟨f, h⟩
    · rw [h] at he
      exact hw e he
    · rw [h, List.mem_append] at he
      rcases he with he | he
      · exact hw e he
      · exact wellTyped_frameBlock f e he

theorem received_step {H G R : Type} (PF : String → Frame H G R) (w : World H G R)
    (c : Call) (hw : ∀ e ∈ received w, e.1 < w.loops.length) :
    ∀ e ∈ received (step PF w c), e.1 < (step PF w c).loops.length := by
  cases c with
  | start e =>
    cases e with
    | none =>
      intro e he
      have hr : received (step PF w (Call.start none)) = received w := by
        simp [step, Start_none, received, receivedOf_append]
        rfl
      rw [hr] at he
      have := hw e he
      simp [step, Start_none]
      omega
    | some err =>
      intro e he
      have hr : received (step PF w (Call.start (some err))) = received w := by
        simp [step, Start_some, received, receivedOf_append]
        rfl
      rw [hr] at he
      simpa [step, Start_some] using hw e he
  | halt => exact hw
  | deliver i r =>
    cases h : w.loops.get? i with
    | none =>
      rw [step_deliver_none PF w i r h]
      exact hw
    | some msg =>
      intro e he
      have hlt : i < w.loops.length := by
        rw [List.get?_eq_getElem?] at h
        exact (List.getElem?_eq_some_iff.mp h).1
      rw [step_deliver_some PF w i r msg h] at he ⊢
      simp only [received, receivedOf_append, receivedOf_loopIter, List.mem_append,
        List.mem_singleton] at he
      simp only [List.length_set]
      rcases he with he | rfl
      · exact hw e he
      · exact hlt

theorem received_run {H G R : Type} (PF : String → Frame H G R) (cs : List Call)
    (w : World H G R) (hw : ∀ e ∈ received w, e.1 < w.loops.length) :
    ∀ e ∈ received (run PF w cs), e.1 < (run PF w cs).loops.length := by
  induction cs generalizing w with
  | nil => exact hw
  | cons c cs ih =>
    rw [run_cons]
    exact ih _ (received_step PF w c hw)

/-! ## The claims -/

/-- C1: for every sequence of payloads received in order by the ingestion loop
of a started driver, the published events are exactly the concatenation, in
receive order, of the per-frame blocks: the `message` event of the frame
`ParseFrame` returns, then one `hand` event per entry of `Hands` in order, then
one `gesture` event per entry of `Gestures` in order. Hence the `message` events
are one per frame, the `hand` events are the hands of the frames and the
`gesture` events the gestures of the frames, each in order. -/
theorem C1_frame_blocks_in_receive_order {H G R : Type} (ParseFrame : String → Frame H G R)
    (ps : List String) :
    published (run ParseFrame World.init
        (Call.start none :: (ps.map RecvResult.data).map (Call.deliver 0)))
      = ps.flatMap (fun p =>
          (MessageEvent, Data.frame (ParseFrame p))
            :: ((ParseFrame p).Hands.map (fun h => (HandEvent, Data.hand h))
              ++ (ParseFrame p).Gestures.map (fun g => (GestureEvent, Data.gesture g))))
    ∧ (published (run ParseFrame World.init
        (Call.start none :: (ps.map RecvResult.data).map (Call.deliver 0)))).filter
          (fun e => decide (e.1 = MessageEvent))
      = ps.map (fun p => (MessageEvent, Data.frame (ParseFrame p)))
    ∧ (published (run ParseFrame World.init
        (Call.start none :: (ps.map RecvResult.data).map (Call.deliver 0)))).filter
          (fun e => decide (e.1 = HandEvent))
      = ps.flatMap (fun p => (ParseFrame p).Hands.map (fun h => (HandEvent, Data.hand h)))
    ∧ (published (run ParseFrame World.init
        (Call.start none :: (ps.map RecvResult.data).map (Call.deliver 0)))).filter
          (fun e => decide (e.1 = GestureEvent))
      = ps.flatMap (fun p =>
          (ParseFrame p).Gestures.map (fun g => (GestureEvent, Data.gesture g))) := by
  rw [published_run_start_data]
  refine ⟨rfl, ?_, ?_, ?_⟩
  · rw [filter_flatMap]
    simp only [filter_message_frameBlock]
    exact flatMap_singleton _ ps
  · rw [filter_flatMap]
    simp only [filter_hand_frameBlock]
  · rw [filter_flatMap]
    simp only [filter_gesture_frameBlock]

/-- C2 (as stated, refuted): with payloads `P1` (2 hands), `P2` (malformed) and
`P3` (1 gesture) the loop does not publish just the events of `F1` and `F3`.
With the stand-in decoder the published sequence has a `message` event for
`P2` in the middle, and no `ParseFrame` whatsoever gives the claimed
five-event sequence. -/
theorem C2_malformed_payload_not_dropped :
    published (run sampleParse World.init
        [Call.start none, Call.deliver 0 (RecvResult.data "P1"),
          Call.deliver 0 (RecvResult.data "P2"), Call.deliver 0 (RecvResult.data "P3")])
      = [(MessageEvent, Data.frame F1), (HandEvent, Data.hand "h1a"),
          (HandEvent, Data.hand "h1b"), (MessageEvent, Data.frame ⟨[], [], ()⟩),
          (MessageEvent, Data.frame F3), (GestureEvent, Data.gesture "g3a")]
    ∧ ¬ ∃ PF : String → Frame String String Unit, PF "P1" = F1 ∧ PF "P3" = F3 ∧
      published (run PF World.init
        [Call.start none, Call.deliver 0 (RecvResult.data "P1"),
          Call.deliver 0 (RecvResult.data "P2"), Call.deliver 0 (RecvResult.data "P3")])
      = [(MessageEvent, Data.frame F1), (HandEvent, Data.hand "h1a"),
          (HandEvent, Data.hand "h1b"), (MessageEvent, Data.frame F3),
          (GestureEvent, Data.gesture "g3a")] := by
  refine ⟨by decide, ?_⟩
  rintro ⟨PF, h1, h3, h⟩
  have hpub := published_run_start_data PF ["P1", "P2", "P3"]
  simp only [List.map_cons, List.map_nil] at hpub
  rw [hpub] at h
  have hlen := congrArg List.length h
  simp [List.flatMap_cons, frameBlock_length, h1, h3, F1, F3] at hlen
  omega

/-- C2 (amended): the loop has no decode-failure path. Every received payload,
whatever `ParseFrame` makes of it, yields the `message` event of the frame
`ParseFrame` returns followed by that frame's `hand` and `gesture` events, and
the loop goes on: for payloads `p1, p2, p3` the published sequence is the block
of `p1`, then the block of `p2`, then the block of `p3`, so a `message` event
for `p2` is published. -/
theorem C2_every_payload_publishes_its_block {H G R : Type}
    (ParseFrame : String → Frame H G R) (p1 p2 p3 : String) :
    published (run ParseFrame World.init
        [Call.start none, Call.deliver 0 (RecvResult.data p1),
          Call.deliver 0 (RecvResult.data p2), Call.deliver 0 (RecvResult.data p3)])
      = frameBlock (ParseFrame p1) ++ frameBlock (ParseFrame p2) ++ frameBlock (ParseFrame p3)
    ∧ (MessageEvent, Data.frame (ParseFrame p2)) ∈ published (run ParseFrame World.init
        [Call.start none, Call.deliver 0 (RecvResult.data p1),
          Call.deliver 0 (RecvResult.data p2), Call.deliver 0 (RecvResult.data p3)]) := by
  have hpub := published_run_start_data ParseFrame [p1, p2, p3]
  simp only [List.map_cons, List.map_nil] at hpub
  rw [hpub]
  constructor
  · simp [List.flatMap_cons]
  · simp [List.flatMap_cons, frameBlock]

/-- C3 (as stated, refuted): after a failed receive the loop of the started
driver neither stops receiving nor stops publishing. With the stand-in decoder,
`P1`, then a failed receive, then `P3`: the failed receive is followed by the
events of `F1` a second time and by a further receive whose frame is published;
and for no `ParseFrame` does the failed receive leave the published events as
they were. -/
theorem C3_failed_receive_does_not_stop :
    (run sampleParse World.init
        [Call.start none, Call.deliver 0 (RecvResult.data "P1"),
          Call.deliver 0 RecvResult.failed, Call.deliver 0 (RecvResult.data "P3")]).trace
      = [Effect.write "\x7b\"enableGestures\":true\x7d" true,
          Effect.receive 0 (RecvResult.data "P1"),
          Effect.publish MessageEvent (Data.frame F1),
          Effect.publish HandEvent (Data.hand "h1a"),
          Effect.publish HandEvent (Data.hand "h1b"),
          Effect.receive 0 RecvResult.failed,
          Effect.publish MessageEvent (Data.frame F1),
          Effect.publish HandEvent (Data.hand "h1a"),
          Effect.publish HandEvent (Data.hand "h1b"),
          Effect.receive 0 (RecvResult.data "P3"),
          Effect.publish MessageEvent (Data.frame F3),
          Effect.publish GestureEvent (Data.gesture "g3a")]
    ∧ ¬ ∃ PF : String → Frame String String Unit,
      published (run PF World.init
        [Call.start none, Call.deliver 0 (RecvResult.data "P1"),
          Call.deliver 0 RecvResult.failed])
      = published (run PF World.init
        [Call.start none, Call.deliver 0 (RecvResult.data "P1")]) := by
  refine ⟨by decide, ?_⟩
  rintro ⟨PF, h⟩
  have h2 := published_run_start_deliver PF [RecvResult.data "P1", RecvResult.failed]
  have h1 := published_run_start_deliver PF [RecvResult.data "P1"]
  simp only [List.map_cons, List.map_nil] at h1 h2
  rw [h1, h2] at h
  have hlen := congrArg List.length h
  simp [loopTrace, publishedOf_append, publishedOf_loopIter, frameBlock_length] at hlen

/-- C3 (amended): a failed receive does not stop the loop and its error is
dropped. After any receives `rs`, a failed receive leaves the goroutine in
place, exactly as it was; the goroutine goes on to a further receive; and a
payload `p` delivered by that next receive is handled as usual: it is received
and published as the block of `ParseFrame p`. -/
theorem C3_failed_receive_loop_continues {H G R : Type}
    (ParseFrame : String → Frame H G R) (rs : List RecvResult) (p : String) :
    (run ParseFrame World.init
        (Call.start none :: (rs ++ [RecvResult.failed]).map (Call.deliver 0))).loops
      = (run ParseFrame World.init (Call.start none :: rs.map (Call.deliver 0))).loops
    ∧ (run ParseFrame World.init
        (Call.start none :: (rs ++ [RecvResult.failed]).map (Call.deliver 0))).loops.length
      = 1
    ∧ received (run ParseFrame World.init
        (Call.start none
          :: (rs ++ [RecvResult.failed, RecvResult.data p]).map (Call.deliver 0)))
      = received (run ParseFrame World.init (Call.start none :: rs.map (Call.deliver 0)))
        ++ [(0, RecvResult.failed), (0, RecvResult.data p)]
    ∧ run ParseFrame World.init
        (Call.start none
          :: (rs ++ [RecvResult.failed, RecvResult.data p]).map (Call.deliver 0))
      = ⟨(run ParseFrame World.init
            (Call.start none :: (rs ++ [RecvResult.failed]).map (Call.deliver 0))).trace
          ++ Effect.receive 0 (RecvResult.data p) :: publishAll (frameBlock (ParseFrame p)),
        [p]⟩ := by
  have hbuf : bufferAfter "" (rs ++ [RecvResult.failed]) = bufferAfter "" rs := by
    rw [bufferAfter_append]
    rfl
  refine ⟨?_, ?_, ?_, ?_⟩
  · rw [run_start_deliver, run_start_deliver, hbuf]
  · rw [run_start_deliver]
    rfl
  · rw [run_start_deliver, run_start_deliver]
    show receivedOf (_ :: loopTrace ParseFrame 0 "" _)
      = receivedOf (_ :: loopTrace ParseFrame 0 "" rs) ++ _
    have hw : ∀ t : List (Effect H G R),
        receivedOf (Effect.write "\x7b\"enableGestures\":true\x7d" true :: t) = receivedOf t :=
      fun _ => rfl
    rw [hw, hw, receivedOf_loopTrace, receivedOf_loopTrace]
    simp
  · have hsplit : rs ++ [RecvResult.failed, RecvResult.data p]
        = (rs ++ [RecvResult.failed]) ++ [RecvResult.data p] := by simp
    have hlast : bufferAfter "" ((rs ++ [RecvResult.failed]) ++ [RecvResult.data p]) = p := by
      rw [bufferAfter_append]
      rfl
    rw [hsplit, run_start_deliver, run_start_deliver,
      loopTrace_append ParseFrame 0 (rs ++ [RecvResult.failed]), loopTrace_singleton, hlast]
    rfl

/-- C10: the buffer `msg` outlives the iterations and a receive that returns
without overwriting it leaves it as it was; the iteration then parses and
publishes the buffer again. So an iteration whose receive failed publishes
exactly the events of the previous iteration (never nothing), and in the loop of
a started driver the events after receives `rs ++ [r, failed]` are those after
`rs ++ [r]` followed by the events of the iteration of `r` once more. -/
theorem C10_failed_receive_replays_previous_iteration {H G R : Type}
    (ParseFrame : String → Frame H G R) (i : Nat) (msg : String) (r : RecvResult)
    (rs : List RecvResult) :
    (loopIter ParseFrame i (loopIter ParseFrame i msg r).1 RecvResult.failed).1
      = (loopIter ParseFrame i msg r).1
    ∧ publishedOf (loopIter ParseFrame i (loopIter ParseFrame i msg r).1 RecvResult.failed).2
      = publishedOf (loopIter ParseFrame i msg r).2
    ∧ publishedOf (loopIter ParseFrame i (loopIter ParseFrame i msg r).1 RecvResult.failed).2
      ≠ []
    ∧ published (run ParseFrame World.init
        (Call.start none :: (rs ++ [r, RecvResult.failed]).map (Call.deliver 0)))
      = published (run ParseFrame World.init
          (Call.start none :: (rs ++ [r]).map (Call.deliver 0)))
        ++ publishedOf (loopIter ParseFrame 0 (bufferAfter "" rs) r).2 := by
  refine ⟨rfl, ?_, ?_, ?_⟩
  · rw [publishedOf_loopIter, publishedOf_loopIter]
    rfl
  · rw [publishedOf_loopIter]
    exact frameBlock_ne_nil _
  · have hsplit : rs ++ [r, RecvResult.failed] = (rs ++ [r]) ++ [RecvResult.failed] := by simp
    rw [hsplit, published_run_start_deliver, published_run_start_deliver,
      loopTrace_append ParseFrame 0 (rs ++ [r]), publishedOf_append, loopTrace_singleton,
      publishedOf_loopIter, bufferAfter_append]
    have hpa : ∀ es : List (String × Data H G R),
        publishedOf (Effect.receive 0 RecvResult.failed :: publishAll es) = es :=
      fun es => publishedOf_publishAll es
    rw [hpa]
    rfl

/-- C4: `Start` returns a non-empty error list exactly when the write of the
enable-gestures command fails, and the list is then the single write error; the
failed `Start` spawns no goroutine and adds no receive and no published event,
so on a fresh driver nothing is ever received or published afterwards (the
driver stays idle). When the write succeeds `Start` returns no error. -/
theorem C4_start_fails_iff_write_fails {H G R : Type} (ParseFrame : String → Frame H G R)
    (w : World H G R) (writeErr : Option String) (err : String)
    (ds : List (Nat × RecvResult)) :
    ((Start w writeErr).1 ≠ [] ↔ writeErr ≠ none)
    ∧ (Start w writeErr).1 = writeErr.toList
    ∧ Start w (some err) = ([err], ⟨w.trace ++ [Effect.write "\x7b\"enableGestures\":true\x7d" false], w.loops⟩)
    ∧ published (Start w (some err)).2 = published w
    ∧ received (Start w (some err)).2 = received w
    ∧ (Start w none).1 = []
    ∧ run ParseFrame (Start World.init (some err)).2 (ds.map fun d => Call.deliver d.1 d.2)
      = ⟨[Effect.write "\x7b\"enableGestures\":true\x7d" false], []⟩ := by
  refine ⟨?_, ?_, rfl, ?_, ?_, rfl, ?_⟩
  · cases writeErr with
    | none => simp [Start_none]
    | some e => simp [Start_some]
  · cases writeErr with
    | none => rfl
    | some e => rfl
  · rw [Start_some]
    simp only [published, publishedOf_append]
    exact List.append_nil _
  · rw [Start_some]
    simp only [received, receivedOf_append]
    exact List.append_nil _
  · rw [Start_some]
    exact run_deliver_no_loops ParseFrame _ ds

/-- C5 (as stated, refuted): a second `Start` after a successful one is not a
no-op: the command has then been written twice and two goroutines exist. -/
theorem C5_second_start_not_a_noop :
    written (run sampleParse World.init [Call.start none, Call.start none])
      = ["\x7b\"enableGestures\":true\x7d", "\x7b\"enableGestures\":true\x7d"]
    ∧ (run sampleParse World.init [Call.start none, Call.start none]).loops = ["", ""]
    ∧ ¬ (written (run sampleParse World.init [Call.start none, Call.start none])).length ≤ 1 := by
  decide

/-- C5 (amended): `Start` has no guard. A second `Start` whose write succeeds
returns success, writes the command once more and spawns one more goroutine; `n`
successful `Start`s on a fresh driver write the command `n` times and leave `n`
goroutines. A payload received by either of two goroutines is published once, by
the goroutine that received it. -/
theorem C5_every_start_writes_and_spawns {H G R : Type} (ParseFrame : String → Frame H G R)
    (w : World H G R) (n : Nat) (p : String) :
    Start (Start w none).2 none
      = ([], ⟨w.trace ++ [Effect.write "\x7b\"enableGestures\":true\x7d" true, Effect.write "\x7b\"enableGestures\":true\x7d" true],
          w.loops ++ ["", ""]⟩)
    ∧ written (run ParseFrame World.init (List.replicate n (Call.start none)))
      = List.replicate n "\x7b\"enableGestures\":true\x7d"
    ∧ (run ParseFrame World.init (List.replicate n (Call.start none))).loops
      = List.replicate n ""
    ∧ published (run ParseFrame World.init
        [Call.start none, Call.start none, Call.deliver 0 (RecvResult.data p)])
      = frameBlock (ParseFrame p)
    ∧ published (run ParseFrame World.init
        [Call.start none, Call.start none, Call.deliver 1 (RecvResult.data p)])
      = frameBlock (ParseFrame p) := by
  refine ⟨?_, ?_, ?_, ?_, ?_⟩
  · simp [Start_none]
  · rw [run_replicate_start]
    show writtenOf ([] ++ _) = _
    rw [List.nil_append]
    induction n with
    | zero => rfl
    | succ n ih =>
      rw [List.replicate_succ, List.replicate_succ]
      show "\x7b\"enableGestures\":true\x7d" :: writtenOf _ = _
      rw [ih]
  · rw [run_replicate_start]
    rfl
  · have h : run ParseFrame World.init
        [Call.start none, Call.start none, Call.deliver 0 (RecvResult.data p)]
        = ⟨[Effect.write "\x7b\"enableGestures\":true\x7d" true, Effect.write "\x7b\"enableGestures\":true\x7d" true]
            ++ (loopIter ParseFrame 0 "" (RecvResult.data p)).2, [p, ""]⟩ := rfl
    rw [h]
    simp only [published, publishedOf_append, publishedOf_loopIter]
    rfl
  · have h : run ParseFrame World.init
        [Call.start none, Call.start none, Call.deliver 1 (RecvResult.data p)]
        = ⟨[Effect.write "\x7b\"enableGestures\":true\x7d" true, Effect.write "\x7b\"enableGestures\":true\x7d" true]
            ++ (loopIter ParseFrame 1 "" (RecvResult.data p)).2, ["", p]⟩ := rfl
    rw [h]
    simp only [published, publishedOf_append, publishedOf_loopIter]
    rfl

/-- C6: `Halt` is meant to halt the driver, but its body is a bare return and
the loop has no exit, so the claim fails on the code. `Start`, `Halt`, then
payload `P1` (the receive in flight), then payload `P3`: with the stand-in
decoder the goroutine receives `P3` after `Halt` and publishes its events; and
for no `ParseFrame` are the published events after `P3` those before it. -/
theorem C6_halt_does_not_stop_loop :
    (run sampleParse World.init
        [Call.start none, Call.halt, Call.deliver 0 (RecvResult.data "P1"),
          Call.deliver 0 (RecvResult.data "P3")]).trace
      = [Effect.write "\x7b\"enableGestures\":true\x7d" true,
          Effect.receive 0 (RecvResult.data "P1"),
          Effect.publish MessageEvent (Data.frame F1),
          Effect.publish HandEvent (Data.hand "h1a"),
          Effect.publish HandEvent (Data.hand "h1b"),
          Effect.receive 0 (RecvResult.data "P3"),
          Effect.publish MessageEvent (Data.frame F3),
          Effect.publish GestureEvent (Data.gesture "g3a")]
    ∧ received (run sampleParse World.init
        [Call.start none, Call.halt, Call.deliver 0 (RecvResult.data "P1"),
          Call.deliver 0 (RecvResult.data "P3")])
      = [(0, RecvResult.data "P1"), (0, RecvResult.data "P3")]
    ∧ ¬ ∃ PF : String → Frame String String Unit,
      published (run PF World.init
        [Call.start none, Call.halt, Call.deliver 0 (RecvResult.data "P1"),
          Call.deliver 0 (RecvResult.data "P3")])
      = published (run PF World.init
        [Call.start none, Call.halt, Call.deliver 0 (RecvResult.data "P1")]) := by
  refine ⟨by decide, by decide, ?_⟩
  rintro ⟨PF, h⟩
  have h2 : run PF World.init
      [Call.start none, Call.halt, Call.deliver 0 (RecvResult.data "P1"),
        Call.deliver 0 (RecvResult.data "P3")]
      = ⟨([Effect.write "\x7b\"enableGestures\":true\x7d" true]
          ++ (loopIter PF 0 "" (RecvResult.data "P1")).2)
          ++ (loopIter PF 0 "P1" (RecvResult.data "P3")).2, ["P3"]⟩ := rfl
  have h1 : run PF World.init
      [Call.start none, Call.halt, Call.deliver 0 (RecvResult.data "P1")]
      = ⟨[Effect.write "\x7b\"enableGestures\":true\x7d" true]
          ++ (loopIter PF 0 "" (RecvResult.data "P1")).2, ["P1"]⟩ := rfl
  rw [h1, h2] at h
  simp only [published, publishedOf_append, publishedOf_loopIter] at h
  have hlen := congrArg List.length h
  simp [frameBlock_length] at hlen

/-- C7: `Halt` never fails. In every state it returns an empty error list and
leaves the state as it was, so a second `Halt` returns an empty error list too;
on a never-started driver nothing has been written or published after it. -/
theorem C7_halt_never_fails {H G R : Type} (w : World H G R) :
    (Halt w).1 = []
    ∧ (Halt (Halt w).2).1 = []
    ∧ (Halt w).2 = w
    ∧ written (Halt (World.init : World H G R)).2 = []
    ∧ published (Halt (World.init : World H G R)).2 = [] :=
  ⟨rfl, rfl, rfl, rfl, rfl⟩

/-- C8: the encoding of the enable-gestures map never fails and is the bytes
`\x7b"enableGestures":true\x7d`; a successful `Start` appends exactly one write,
of these bytes, to the trace; on a fresh driver that write is the first effect
and the only write, every receive of the loop coming after it; and in any
reachable state the goroutine a `Start` is about to spawn has not received yet,
so all its receives follow that `Start`'s write. -/
theorem C8_start_sends_enable_gestures_once {H G R : Type}
    (ParseFrame : String → Frame H G R) (w : World H G R) (rs : List RecvResult)
    (cs : List Call) (r : RecvResult) :
    jsonMarshal enableGestures = Except.ok "\x7b\"enableGestures\":true\x7d"
    ∧ (Start w none).2.trace = w.trace ++ [Effect.write "\x7b\"enableGestures\":true\x7d" true]
    ∧ written (Start w none).2 = written w ++ ["\x7b\"enableGestures\":true\x7d"]
    ∧ (run ParseFrame World.init (Call.start none :: rs.map (Call.deliver 0))).trace
      = Effect.write "\x7b\"enableGestures\":true\x7d" true :: loopTrace ParseFrame 0 "" rs
    ∧ written (run ParseFrame World.init (Call.start none :: rs.map (Call.deliver 0)))
      = ["\x7b\"enableGestures\":true\x7d"]
    ∧ ((run ParseFrame World.init cs).loops.length, r)
      ∉ received (run ParseFrame World.init cs)
    ∧ (Start (run ParseFrame World.init cs) none).2.loops
      = (run ParseFrame World.init cs).loops ++ [""] := by
  refine ⟨rfl, rfl, ?_, ?_, ?_, ?_, rfl⟩
  · rw [Start_none]
    simp only [written, writtenOf_append]
    rfl
  · rw [run_start_deliver]
  · rw [run_start_deliver]
    show "\x7b\"enableGestures\":true\x7d" :: writtenOf (loopTrace ParseFrame 0 "" rs) = _
    rw [writtenOf_loopTrace]
  · intro hmem
    have hinit : ∀ e ∈ received (World.init : World H G R), e.1 < (World.init : World H G R).loops.length := by
      intro e he
      cases he
    exact Nat.lt_irrefl _ (received_run ParseFrame cs World.init hinit _ hmem)

/-- C9: `NewLeapMotionDriver` declares exactly the topics "message", "hand" and
"gesture" on the driver's bus and keeps the given name and adaptor as `Name()`
and `Connection()`; and whatever calls are made on a fresh driver, every
published event is on one of these three topics, a `Frame` on "message", a
`Hand` on "hand" and a `Gesture` on "gesture". -/
theorem C9_topic_set_closed {A H G R : Type} (a : A) (name : String)
    (ParseFrame : String → Frame H G R) (cs : List Call) :
    (NewLeapMotionDriver a name).eventer.eventnames = ["message", "hand", "gesture"]
    ∧ (NewLeapMotionDriver a name).Name = name
    ∧ (NewLeapMotionDriver a name).Connection = a
    ∧ ∀ e ∈ published (run ParseFrame World.init cs),
        e.1 ∈ (NewLeapMotionDriver a name).eventer.eventnames
        ∧ ((∃ f, e = ("message", Data.frame f)) ∨ (∃ h, e = ("hand", Data.hand h))
          ∨ (∃ g, e = ("gesture", Data.gesture g))) := by
  have hnames : (NewLeapMotionDriver a name).eventer.eventnames
      = ["message", "hand", "gesture"] := by
    simp [NewLeapMotionDriver, NewEventer, Eventer.AddEvent, MessageEvent, HandEvent,
      GestureEvent]
  refine ⟨hnames, rfl, rfl, ?_⟩
  intro e he
  have hinit : ∀ e ∈ published (World.init : World H G R), wellTyped e := by
    intro e he
    cases he
  have hwt : wellTyped e := wellTyped_run ParseFrame cs World.init hinit e he
  refine ⟨?_, hwt⟩
  rw [hnames]
  rcases hwt with ⟨f, rfl⟩ | ⟨h, rfl⟩ | ⟨g, rfl⟩ <;> simp [MessageEvent, HandEvent, GestureEvent]

/-- C9, at a concrete run: the `hand` event of `h1a` is published by the loop
and its topic is one the constructor declared. -/
theorem C9_topic_set_closed_witness :
    ("hand", Data.hand "h1a") ∈ published (run sampleParse World.init
        [Call.start none, Call.deliver 0 (RecvResult.data "P1")])
    ∧ "hand" ∈ (NewLeapMotionDriver () "leap").eventer.eventnames :=
  ⟨by decide,
    ((C9_topic_set_closed () "leap" sampleParse
      [Call.start none, Call.deliver 0 (RecvResult.data "P1")]).2.2.2
        ("hand", Data.hand "h1a") (by decide)).1⟩

end Leap
